import Mathlib

/-!
Shallow embedding of `src/minimap.ts` (a MakeCode Arcade minimap extension).

The host `Image` primitive is modelled as a pixel buffer indexed by `Int`
coordinates: `getPixel` returns 0 outside the bounds and `setPixel` outside
the bounds is a no-op, matching the MakeCode image semantics the code relies
on.  TypeScript `1 << s` is written `2 ^ s`, and `i >> s` on a non-negative
number is written `i / 2 ^ s` (Nat division); on a possibly negative number
(`sprite.x >> minimap.scale`) it is floor division by `2 ^ s`, which for a
positive divisor is Lean's Int division (`Int.ediv`).
-/

namespace minimap

/-- The host image primitive: a `width × height` pixel buffer.  `data` is
meaningful at coordinates `0 ≤ x < width`, `0 ≤ y < height`. -/
structure Image where
  width : Nat
  height : Nat
  data : Int → Int → Nat

/-- Coordinates lie inside the buffer. -/
def Image.inBounds (img : Image) (x y : Int) : Prop :=
  0 ≤ x ∧ x < img.width ∧ 0 ≤ y ∧ y < img.height

instance (img : Image) (x y : Int) : Decidable (img.inBounds x y) := by
  unfold Image.inBounds; infer_instance

/-- `image.getPixel(x, y)`: 0 outside the bounds. -/
def Image.getPixel (img : Image) (x y : Int) : Nat :=
  if img.inBounds x y then img.data x y else 0

/-- `image.setPixel(x, y, c)`: no-op outside the bounds. -/
def Image.setPixel (img : Image) (x y : Int) (c : Nat) : Image :=
  if img.inBounds x y then
    { img with data := fun a b => if a = x ∧ b = y then c else img.data a b }
  else img

/-- `image.create(w, h)`: a blank (all-zero) buffer. -/
def Image.create (w h : Nat) : Image :=
  { width := w, height := h, data := fun _ _ => 0 }

/-- `image.fill(c)`. -/
def Image.fill (img : Image) (c : Nat) : Image :=
  { img with data := fun _ _ => c }

@[simp] theorem Image.width_setPixel (img : Image) (x y : Int) (c : Nat) :
    (img.setPixel x y c).width = img.width := by
  unfold Image.setPixel; split <;> rfl

@[simp] theorem Image.height_setPixel (img : Image) (x y : Int) (c : Nat) :
    (img.setPixel x y c).height = img.height := by
  unfold Image.setPixel; split <;> rfl

theorem Image.inBounds_setPixel (img : Image) (x y : Int) (c : Nat) (a b : Int) :
    (img.setPixel x y c).inBounds a b ↔ img.inBounds a b := by
  unfold Image.inBounds
  rw [Image.width_setPixel, Image.height_setPixel]

/-- Reading back the pixel just written (if it was in bounds). -/
theorem Image.getPixel_setPixel_self (img : Image) (x y : Int) (c : Nat) :
    (img.setPixel x y c).getPixel x y =
      if img.inBounds x y then c else img.getPixel x y := by
  unfold Image.setPixel Image.getPixel
  split
  · next h => simp [Image.inBounds, h.1, h.2.1, h.2.2.1, h.2.2.2]
  · rfl

/-- Writing one pixel does not change any other pixel. -/
theorem Image.getPixel_setPixel_ne (img : Image) (x y : Int) (c : Nat) (a b : Int)
    (h : ¬(a = x ∧ b = y)) :
    (img.setPixel x y c).getPixel a b = img.getPixel a b := by
  unfold Image.setPixel Image.getPixel Image.inBounds
  split
  · dsimp only
    split_ifs <;> simp_all
  · rfl

/-- Writing the same value to the same pixel twice reads back like writing
it once. -/
theorem Image.getPixel_setPixel_idem (d : Image) (a b : Int) (v : Nat) :
    ((d.setPixel a b v).setPixel a b v).getPixel a b =
      (d.setPixel a b v).getPixel a b := by
  rw [Image.getPixel_setPixel_self]
  split
  · next h =>
    rw [Image.getPixel_setPixel_self,
      if_pos ((d.inBounds_setPixel a b v a b).mp h)]
  · rfl

/-- `setPixel` then `getPixel` at the written spot only depends on the
previous value at that spot (and the buffer dimensions). -/
theorem Image.getPixel_setPixel_congr (d d' : Image) (a b : Int) (v : Nat)
    (hw : d'.width = d.width) (hh : d'.height = d.height)
    (hg : d'.getPixel a b = d.getPixel a b) :
    (d'.setPixel a b v).getPixel a b = (d.setPixel a b v).getPixel a b := by
  rw [Image.getPixel_setPixel_self, Image.getPixel_setPixel_self]
  have hib : d'.inBounds a b ↔ d.inBounds a b := by
    unfold Image.inBounds; rw [hw, hh]
  by_cases h : d.inBounds a b
  · rw [if_pos (hib.mpr h), if_pos h]
  · rw [if_neg (fun hc => h (hib.mp hc)), if_neg h, hg]

/-- A non-zero `getPixel` result can only come from inside the bounds. -/
theorem Image.inBounds_of_getPixel_ne_zero {img : Image} {x y : Int}
    (h : img.getPixel x y ≠ 0) : img.inBounds x y := by
  unfold Image.getPixel at h
  by_contra hc
  rw [if_neg hc] at h
  exact h rfl

/-!  ## renderScaledImage  -/

/-- The indices visited by `for (i = 0; i < bound; i += step)`: exactly the
multiples of `step` below `bound`, in increasing order. -/
def stepIndices (step bound : Nat) : List Nat :=
  (List.range bound).filter (fun i => i % step == 0)

theorem mem_stepIndices {step bound i : Nat} :
    i ∈ stepIndices step bound ↔ i < bound ∧ i % step = 0 := by
  simp [stepIndices, List.mem_filter, List.mem_range]

/-- The `(i, j)` pairs visited by the double loop of `renderScaledImage`:
outer loop over `i` (columns of the source), inner over `j` (rows), both
advancing by `1 << scale = 2 ^ scale`. -/
def renderPairs (source : Image) (scale : Nat) : List (Nat × Nat) :=
  (stepIndices (2 ^ scale) source.width).flatMap (fun i =>
    (stepIndices (2 ^ scale) source.height).map (fun j => (i, j)))

theorem mem_renderPairs {source : Image} {scale : Nat} {i j : Nat} :
    (i, j) ∈ renderPairs source scale ↔
      i < source.width ∧ i % 2 ^ scale = 0 ∧
        j < source.height ∧ j % 2 ^ scale = 0 := by
  simp only [renderPairs, List.mem_flatMap, List.mem_map, mem_stepIndices,
    Prod.mk.injEq]
  constructor
  · rintro ⟨a, ⟨ha1, ha2⟩, c, ⟨hc1, hc2⟩, rfl, rfl⟩
    exact ⟨ha1, ha2, hc1, hc2⟩
  · rintro ⟨h1, h2, h3, h4⟩
    exact ⟨i, ⟨h1, h2⟩, j, ⟨h3, h4⟩, rfl, rfl⟩

/-- Loop body of `renderScaledImage` at index pair `p = (i, j)`:
`if (source.getPixel(i, j) != 0)
   destination.setPixel(x + (i >> scale), y + (j >> scale), source.getPixel(i, j))`
(`i >> scale` written as Nat division by `2 ^ scale`). -/
def applyPix (source : Image) (x y : Int) (scale : Nat) (d : Image)
    (p : Nat × Nat) : Image :=
  if source.getPixel p.1 p.2 ≠ 0 then
    d.setPixel (x + (p.1 / 2 ^ scale : Nat)) (y + (p.2 / 2 ^ scale : Nat))
      (source.getPixel p.1 p.2)
  else d

/-- `renderScaledImage(source, destination, x, y, scale)` from
`src/minimap.ts` lines 35-44: the double loop realised as a fold over the
visited index pairs. -/
def renderScaledImage (source destination : Image) (x y : Int)
    (scale : Nat) : Image :=
  (renderPairs source scale).foldl (applyPix source x y scale) destination

theorem applyPix_width (source : Image) (x y : Int) (s : Nat) (d : Image)
    (p : Nat × Nat) : (applyPix source x y s d p).width = d.width := by
  unfold applyPix; split <;> simp

theorem applyPix_height (source : Image) (x y : Int) (s : Nat) (d : Image)
    (p : Nat × Nat) : (applyPix source x y s d p).height = d.height := by
  unfold applyPix; split <;> simp

theorem foldl_width {α : Type} (L : List α) (g : Image → α → Image)
    (h : ∀ d e, (g d e).width = d.width) (d : Image) :
    (L.foldl g d).width = d.width := by
  induction L generalizing d with
  | nil => rfl
  | cons e t ih => rw [List.foldl_cons, ih, h]

theorem foldl_height {α : Type} (L : List α) (g : Image → α → Image)
    (h : ∀ d e, (g d e).height = d.height) (d : Image) :
    (L.foldl g d).height = d.height := by
  induction L generalizing d with
  | nil => rfl
  | cons e t ih => rw [List.foldl_cons, ih, h]

@[simp] theorem renderScaledImage_width (source dst : Image) (x y : Int)
    (s : Nat) : (renderScaledImage source dst x y s).width = dst.width :=
  foldl_width _ _ (fun d e => applyPix_width source x y s d e) dst

@[simp] theorem renderScaledImage_height (source dst : Image) (x y : Int)
    (s : Nat) : (renderScaledImage source dst x y s).height = dst.height :=
  foldl_height _ _ (fun d e => applyPix_height source x y s d e) dst

/-- What a fold of `applyPix` leaves at destination coordinate `(a, b)`,
assuming every visited write that hits `(a, b)` carries the same value `v`:
either some visited pair writes `v` there, or the pixel is untouched. -/
theorem foldl_applyPix_getPixel (source : Image) (x y : Int) (s : Nat)
    (L : List (Nat × Nat)) (d : Image) (a b : Int) (v : Nat)
    (hv : ∀ p ∈ L, source.getPixel p.1 p.2 ≠ 0 →
      x + (p.1 / 2 ^ s : Nat) = a → y + (p.2 / 2 ^ s : Nat) = b →
      source.getPixel p.1 p.2 = v) :
    (L.foldl (applyPix source x y s) d).getPixel a b =
      if ∃ p ∈ L, source.getPixel p.1 p.2 ≠ 0 ∧
          x + (p.1 / 2 ^ s : Nat) = a ∧ y + (p.2 / 2 ^ s : Nat) = b
      then (d.setPixel a b v).getPixel a b
      else d.getPixel a b := by
  induction L generalizing d with
  | nil => simp
  | cons e t ih =>
    rw [List.foldl_cons]
    rw [ih (applyPix source x y s d e)
      (fun p hp h1 h2 h3 => hv p (List.mem_cons_of_mem e hp) h1 h2 h3)]
    by_cases he : source.getPixel e.1 e.2 ≠ 0 ∧
        x + (e.1 / 2 ^ s : Nat) = a ∧ y + (e.2 / 2 ^ s : Nat) = b
    · have hval : source.getPixel e.1 e.2 = v :=
        hv e (List.mem_cons_self e t) he.1 he.2.1 he.2.2
      have happly : applyPix source x y s d e = d.setPixel a b v := by
        unfold applyPix
        rw [if_pos he.1, he.2.1, he.2.2, hval]
      have hex : ∃ p ∈ e :: t, source.getPixel p.1 p.2 ≠ 0 ∧
          x + (p.1 / 2 ^ s : Nat) = a ∧ y + (p.2 / 2 ^ s : Nat) = b :=
        ⟨e, List.mem_cons_self e t, he⟩
      rw [happly, if_pos hex]
      split
      · exact Image.getPixel_setPixel_idem d a b v
      · rfl
    · have hd' : (applyPix source x y s d e).getPixel a b = d.getPixel a b := by
        unfold applyPix
        split
        · next hne =>
          apply Image.getPixel_setPixel_ne
          intro hab
          exact he ⟨hne, hab.1.symm, hab.2.symm⟩
        · rfl
      have hiff : (∃ p ∈ t, source.getPixel p.1 p.2 ≠ 0 ∧
            x + (p.1 / 2 ^ s : Nat) = a ∧ y + (p.2 / 2 ^ s : Nat) = b) ↔
          (∃ p ∈ e :: t, source.getPixel p.1 p.2 ≠ 0 ∧
            x + (p.1 / 2 ^ s : Nat) = a ∧ y + (p.2 / 2 ^ s : Nat) = b) := by
        constructor
        · rintro ⟨p, hp, h⟩
          exact ⟨p, List.mem_cons_of_mem e hp, h⟩
        · rintro ⟨p, hp, h⟩
          rcases List.mem_cons.mp hp with rfl | hp'
          · exact absurd h he
          · exact ⟨p, hp', h⟩
      exact if_congr hiff
        (Image.getPixel_setPixel_congr d (applyPix source x y s d e) a b v
          (applyPix_width source x y s d e) (applyPix_height source x y s d e)
          hd')
        hd'

/-- The source pixel that `renderScaledImage source _ x y scale` maps onto
destination coordinate `(a, b)`: the pixel at source coordinate
`((a - x) * 2 ^ scale, (b - y) * 2 ^ scale)`, or 0 when no source pixel
corresponds to `(a, b)`. -/
def srcValAt (source : Image) (x y : Int) (scale : Nat) (a b : Int) : Nat :=
  if x ≤ a ∧ y ≤ b then
    source.getPixel ((a - x) * (2 ^ scale : Nat)) ((b - y) * (2 ^ scale : Nat))
  else 0

theorem srcValAt_of_pair (source : Image) (x y : Int) (s : Nat) {i j : Nat}
    (hi : i % 2 ^ s = 0) (hj : j % 2 ^ s = 0) :
    srcValAt source x y s (x + (i / 2 ^ s : Nat)) (y + (j / 2 ^ s : Nat)) =
      source.getPixel i j := by
  unfold srcValAt
  rw [if_pos ⟨le_add_of_nonneg_right (by positivity),
    le_add_of_nonneg_right (by positivity)⟩]
  have e1 : (x + ((i / 2 ^ s : Nat) : Int) - x) * ((2 ^ s : Nat) : Int) =
      (i : Int) := by
    have h : ((i / 2 ^ s : Nat) : Int) * ((2 ^ s : Nat) : Int) = (i : Int) := by
      exact_mod_cast Nat.div_mul_cancel (Nat.dvd_of_mod_eq_zero hi)
    calc (x + ((i / 2 ^ s : Nat) : Int) - x) * ((2 ^ s : Nat) : Int)
        = ((i / 2 ^ s : Nat) : Int) * ((2 ^ s : Nat) : Int) := by ring
      _ = (i : Int) := h
  have e2 : (y + ((j / 2 ^ s : Nat) : Int) - y) * ((2 ^ s : Nat) : Int) =
      (j : Int) := by
    have h : ((j / 2 ^ s : Nat) : Int) * ((2 ^ s : Nat) : Int) = (j : Int) := by
      exact_mod_cast Nat.div_mul_cancel (Nat.dvd_of_mod_eq_zero hj)
    calc (y + ((j / 2 ^ s : Nat) : Int) - y) * ((2 ^ s : Nat) : Int)
        = ((j / 2 ^ s : Nat) : Int) * ((2 ^ s : Nat) : Int) := by ring
      _ = (j : Int) := h
  rw [e1, e2]

/-- There is a visited write hitting destination `(a, b)` exactly when the
corresponding source pixel is non-zero. -/
theorem exists_pair_iff_srcValAt (source : Image) (x y : Int) (s : Nat)
    (a b : Int) :
    (∃ p ∈ renderPairs source s, source.getPixel p.1 p.2 ≠ 0 ∧
        x + (p.1 / 2 ^ s : Nat) = a ∧ y + (p.2 / 2 ^ s : Nat) = b) ↔
      srcValAt source x y s a b ≠ 0 := by
  constructor
  · rintro ⟨⟨i, j⟩, hp, hne, h2, h3⟩
    obtain ⟨hi1, hi2, hj1, hj2⟩ := mem_renderPairs.mp hp
    rw [← h2, ← h3, srcValAt_of_pair source x y s hi2 hj2]
    exact hne
  · intro hne
    unfold srcValAt at hne
    by_cases hxy : x ≤ a ∧ y ≤ b
    · rw [if_pos hxy] at hne
      obtain ⟨ha0, haw, hb0, hbh⟩ := Image.inBounds_of_getPixel_ne_zero hne
      have hka : (((a - x).toNat : Int)) = a - x :=
        Int.toNat_of_nonneg (by omega)
      have hlb : (((b - y).toNat : Int)) = b - y :=
        Int.toNat_of_nonneg (by omega)
      have hcasti : (((a - x).toNat * 2 ^ s : Nat) : Int) =
          (a - x) * (2 ^ s : Nat) := by push_cast [hka]; ring
      have hcastj : (((b - y).toNat * 2 ^ s : Nat) : Int) =
          (b - y) * (2 ^ s : Nat) := by push_cast [hlb]; ring
      refine ⟨((a - x).toNat * 2 ^ s, (b - y).toNat * 2 ^ s), ?_, ?_, ?_, ?_⟩
      · refine mem_renderPairs.mpr ⟨?_, Nat.mul_mod_left _ _, ?_,
          Nat.mul_mod_left _ _⟩
        · have : (((a - x).toNat * 2 ^ s : Nat) : Int) < source.width := by
            rw [hcasti]; exact_mod_cast haw
          exact_mod_cast this
        · have : (((b - y).toNat * 2 ^ s : Nat) : Int) < source.height := by
            rw [hcastj]; exact_mod_cast hbh
          exact_mod_cast this
      · show source.getPixel (((a - x).toNat * 2 ^ s : Nat) : Int)
            (((b - y).toNat * 2 ^ s : Nat) : Int) ≠ 0
        rw [hcasti, hcastj]
        exact hne
      · show x + (((a - x).toNat * 2 ^ s / 2 ^ s : Nat) : Int) = a
        rw [Nat.mul_div_cancel _ (Nat.pos_pow_of_pos s (by norm_num)), hka]
        ring
      · show y + (((b - y).toNat * 2 ^ s / 2 ^ s : Nat) : Int) = b
        rw [Nat.mul_div_cancel _ (Nat.pos_pow_of_pos s (by norm_num)), hlb]
        ring
    · rw [if_neg hxy] at hne
      exact absurd rfl hne

/-- Per-pixel characterization of `renderScaledImage`: destination pixel
`(a, b)` receives the corresponding source pixel when that pixel is non-zero
(subject to `setPixel` bounds), and is untouched otherwise. -/
theorem renderScaledImage_getPixel (source dst : Image) (x y : Int) (s : Nat)
    (a b : Int) :
    (renderScaledImage source dst x y s).getPixel a b =
      if srcValAt source x y s a b ≠ 0 then
        (dst.setPixel a b (srcValAt source x y s a b)).getPixel a b
      else dst.getPixel a b := by
  unfold renderScaledImage
  have hv : ∀ p ∈ renderPairs source s, source.getPixel p.1 p.2 ≠ 0 →
      x + (p.1 / 2 ^ s : Nat) = a → y + (p.2 / 2 ^ s : Nat) = b →
      source.getPixel p.1 p.2 = srcValAt source x y s a b := by
    rintro ⟨i, j⟩ hp hne h2 h3
    obtain ⟨hi1, hi2, hj1, hj2⟩ := mem_renderPairs.mp hp
    rw [← h2, ← h3, srcValAt_of_pair source x y s hi2 hj2]
  rw [foldl_applyPix_getPixel source x y s _ dst a b
    (srcValAt source x y s a b) hv]
  exact if_congr (exists_pair_iff_srcValAt source x y s a b) rfl rfl

/-!  ## getMinimapObject  -/

/-- The host tile-map interface read by `getMinimapObject`. -/
structure TileMap where
  scale : Nat
  areaWidth : Nat
  areaHeight : Nat
  getTileIndex : Nat → Nat → Nat
  getTileImage : Nat → Image

/-- The part of the host world state the minimap code reads:
`game.currentScene().tileMap`, absent when no tile map is active. -/
structure World where
  tileMap : Option TileMap

/-- The `Minimap` interface of `src/minimap.ts`. -/
structure Minimap where
  image : Image
  scale : Nat
  borderWidth : Nat
  borderColor : Nat

/-- Inner-loop body of `getMinimapObject`: fetch the tile image of cell
`(c, r)` and stamp it at `nx = (c * tileWidth >> scale) + borderWidth`,
`ny = (r * tileWidth >> scale) + borderWidth` (`tileWidth = 1 << tilemap.scale
= 2 ^ tilemap.scale`). -/
def stampTile (tilemap : TileMap) (scale borderWidth : Nat) (r : Nat)
    (img : Image) (c : Nat) : Image :=
  let idx := tilemap.getTileIndex c r
  let tile := tilemap.getTileImage idx
  let nx := (c * 2 ^ tilemap.scale / 2 ^ scale + borderWidth : Nat)
  let ny := (r * 2 ^ tilemap.scale / 2 ^ scale + borderWidth : Nat)
  renderScaledImage tile img nx ny scale

/-- One pass of the outer (row) loop of `getMinimapObject`: stamp all
`numCols = areaWidth >> tilemap.scale` tiles of row `r`. -/
def stampRow (tilemap : TileMap) (scale borderWidth : Nat) (img : Image)
    (r : Nat) : Image :=
  (List.range (tilemap.areaWidth / 2 ^ tilemap.scale)).foldl
    (stampTile tilemap scale borderWidth r) img

/-- `getMinimapObject(scale, borderWidth, borderColor)` from `src/minimap.ts`
lines 54-93.  TS `areaHeight() >> tilemap.scale` is `/ 2 ^ tilemap.scale`,
`1 << tilemap.scale` is `2 ^ tilemap.scale`, and the row/column double loop
is a fold over `List.range` (`stampRow` / `stampTile`). -/
def getMinimapObject (world : World) (scale borderWidth borderColor : Nat) :
    Minimap :=
  match world.tileMap with
  | none =>
    { image := Image.create 1 1, scale := scale, borderWidth := borderWidth,
      borderColor := borderColor }
  | some tilemap =>
    let numRows := tilemap.areaHeight / 2 ^ tilemap.scale
    let numCols := tilemap.areaWidth / 2 ^ tilemap.scale
    let tileWidth := 2 ^ tilemap.scale
    let base := Image.create (numCols * tileWidth / 2 ^ scale + borderWidth * 2)
      (numRows * tileWidth / 2 ^ scale + borderWidth * 2)
    let filled := if borderWidth > 0 then base.fill borderColor else base
    let minimap :=
      (List.range numRows).foldl (stampRow tilemap scale borderWidth) filled
    { image := minimap, scale := scale, borderWidth := borderWidth,
      borderColor := borderColor }

/-!  ## includeSprite  -/

/-- The host sprite data read by the minimap code.  `destroyed` models
`!!(sprite.flags & sprites.Flag.Destroyed)`. -/
structure Sprite where
  x : Int
  y : Int
  width : Nat
  height : Nat
  image : Image
  destroyed : Bool

/-- `Math.max(minimap.scale - spriteScale, 0)` from `includeSprite`
(`src/minimap.ts` line 114): the effective overlay scale. -/
def effectiveScale (minimapScale spriteScale : Nat) : Nat :=
  (max ((minimapScale : Int) - (spriteScale : Int)) 0).toNat

/-- `includeSprite(minimap, sprite, spriteScale)` from `src/minimap.ts`
lines 113-118.  `sprite.x >> minimap.scale` on a possibly negative
coordinate is floor division by `2 ^ minimap.scale` (Int `/`), and
`(sprite.width / 2) >> scale` on a non-negative number is Nat division. -/
def includeSprite (minimap : Minimap) (sprite : Sprite) (spriteScale : Nat) :
    Minimap :=
  let scale := effectiveScale minimap.scale spriteScale
  let x := sprite.x / ((2 ^ minimap.scale : Nat) : Int) -
    ((sprite.width / 2 / 2 ^ scale : Nat) : Int) + minimap.borderWidth
  let y := sprite.y / ((2 ^ minimap.scale : Nat) : Int) -
    ((sprite.height / 2 / 2 ^ scale : Nat) : Int) + minimap.borderWidth
  { minimap with
      image := renderScaledImage sprite.image minimap.image x y scale }

/-!  ## The tracked-sprite list and the refresh tick  -/

/-- A tracked-list entry (`IUpdateSprite` in the source).  The sprite field
is a reference into the host sprite heap; `none` models a null reference. -/
structure IUpdateSprite where
  sprite : Option Nat
  scale : Nat
deriving DecidableEq

/-- `addSpriteToUpdateList` (`spritesToUpdate.push(...)`). -/
def addSpriteToUpdateList (lst : List IUpdateSprite) (sprite : Option Nat)
    (spriteScale : Nat) : List IUpdateSprite :=
  lst ++ [{ sprite := sprite, scale := spriteScale }]

/-- `removeSpriteFromUpdateList` from `src/minimap.ts` lines 148-150:
`spritesToUpdate.filter(u => u.sprite !== sprite)`; `!==` is reference
inequality, modelled as inequality of heap references. -/
def removeSpriteFromUpdateList (lst : List IUpdateSprite)
    (sprite : Option Nat) : List IUpdateSprite :=
  lst.filter (fun u => u.sprite != sprite)

/-- `isDestroyed` from `src/minimap.ts` lines 152-154:
`!sprite || !!(sprite.flags & sprites.Flag.Destroyed)`. -/
def isDestroyed (heap : Nat → Sprite) (sprite : Option Nat) : Bool :=
  match sprite with
  | none => true
  | some r => (heap r).destroyed

/-- Dereference a tracked sprite; the `none` branch is unreachable in the
tick loop, which dereferences only after `isDestroyed` returned false. -/
def derefSprite (heap : Nat → Sprite) (sprite : Option Nat) : Sprite :=
  match sprite with
  | some r => heap r
  | none =>
    { x := 0, y := 0, width := 0, height := 0, image := Image.create 0 0,
      destroyed := true }

/-- The body of the callback registered by `updateMiniMapEvery`
(`src/minimap.ts` lines 161-174), after the `minimapSprite.data` read (see
`runTick`): rebuild the minimap from the old instance's parameters, then
walk a copy (`.slice()`) of the tracked list, overlaying live sprites and
pruning destroyed ones; the pair threads `minimapSprite.data` (whose image
is what `setImage` finally displays) and the live `spritesToUpdate`. -/
def tickOnce (world : World) (heap : Nat → Sprite) (oldMM : Minimap)
    (spritesToUpdate : List IUpdateSprite) : Minimap × List IUpdateSprite :=
  let newMM :=
    getMinimapObject world oldMM.scale oldMM.borderWidth oldMM.borderColor
  spritesToUpdate.foldl
    (fun st u =>
      if !isDestroyed heap u.sprite then
        (includeSprite st.1 (derefSprite heap u.sprite) u.scale, st.2)
      else
        (st.1, removeSpriteFromUpdateList st.2 u.sprite))
    (newMM, spritesToUpdate)

/-- Module-level mutable state of the `minimap` namespace: `minimapSprite`
(undefined until `createMinimapSprite` runs; its `data` is a `Minimap`) and
`spritesToUpdate`. -/
structure ModuleState where
  minimapSprite : Option Minimap
  spritesToUpdate : List IUpdateSprite

/-- `createMinimapSprite` from `src/minimap.ts` lines 124-129: builds a
minimap object and installs it as the module-level minimap sprite's data. -/
def createMinimapSprite (world : World) (scale borderWidth borderColor : Nat)
    (st : ModuleState) : ModuleState :=
  let minimap := getMinimapObject world scale borderWidth borderColor
  { st with minimapSprite := some minimap }

/-- One refresh tick as scheduled by `updateMiniMapEvery`.  The callback
starts with `let oldMM = minimapSprite.data`, an unguarded dereference of
the module-level `minimapSprite`; the `none` result models the fault when
no minimap sprite was ever created. -/
def runTick (world : World) (heap : Nat → Sprite) (st : ModuleState) :
    Option (ModuleState × Image) :=
  match st.minimapSprite with
  | none => none
  | some oldMM =>
    let r := tickOnce world heap oldMM st.spritesToUpdate
    some ({ minimapSprite := some r.1, spritesToUpdate := r.2 }, r.1.image)

/-!  ## Generic helper lemmas  -/

theorem foldl_congr_mem {α β : Type} (L : List α) (f g : β → α → β) (init : β)
    (h : ∀ d e, e ∈ L → f d e = g d e) : L.foldl f init = L.foldl g init := by
  induction L generalizing init with
  | nil => rfl
  | cons e t ih =>
    rw [List.foldl_cons, List.foldl_cons, h init e (List.mem_cons_self e t)]
    exact ih _ (fun d e' he' => h d e' (List.mem_cons_of_mem e he'))

theorem foldl_getPixel_invariant {α : Type} (L : List α) (g : Image → α → Image)
    (p q : Int) : ∀ init : Image,
    (∀ img e, e ∈ L → (g img e).getPixel p q = img.getPixel p q) →
    (L.foldl g init).getPixel p q = init.getPixel p q := by
  induction L with
  | nil => intro init _; rfl
  | cons e t ih =>
    intro init h
    rw [List.foldl_cons,
      ih _ (fun img e' he' => h img e' (List.mem_cons_of_mem e he')),
      h init e (List.mem_cons_self e t)]

theorem Image.getPixel_fill (img : Image) (c : Nat) (p q : Int) :
    (img.fill c).getPixel p q = if img.inBounds p q then c else 0 := rfl

theorem Image.inBounds_of_dims {img img' : Image} (hw : img.width = img'.width)
    (hh : img.height = img'.height) {p q : Int} (h : img.inBounds p q) :
    img'.inBounds p q := by
  unfold Image.inBounds at h ⊢
  rw [hw, hh] at h
  exact h

/-- A blank image contributes nothing through `srcValAt`. -/
theorem srcValAt_create (w h : Nat) (x y : Int) (s : Nat) (a b : Int) :
    srcValAt (Image.create w h) x y s a b = 0 := by
  unfold srcValAt Image.getPixel
  split
  · split <;> rfl
  · rfl

/-!  ## C1: renderScaledImage reads/writes  -/

/-- `renderScaledImage` only reads the source at coordinates that are
multiples of `2 ^ scale` in both axes. -/
theorem renderScaledImage_reads_only_multiples (source dst : Image)
    (x y : Int) (s : Nat) (src2 : Image) (hw : src2.width = source.width)
    (hh : src2.height = source.height)
    (hpix : ∀ i j : Nat, i % 2 ^ s = 0 → j % 2 ^ s = 0 →
      src2.getPixel i j = source.getPixel i j) :
    renderScaledImage src2 dst x y s = renderScaledImage source dst x y s := by
  unfold renderScaledImage
  have hpairs : renderPairs src2 s = renderPairs source s := by
    unfold renderPairs
    rw [hw, hh]
  rw [hpairs]
  apply foldl_congr_mem
  rintro d ⟨i, j⟩ hmem
  obtain ⟨hi1, hi2, hj1, hj2⟩ := mem_renderPairs.mp hmem
  unfold applyPix
  dsimp only
  rw [hpix i j hi2 hj2]

/-- Every non-zero source pixel at a multiple coordinate lands at
`(x + (i >> s), y + (j >> s))` (when that destination is in bounds). -/
theorem renderScaledImage_writes (source dst : Image) (x y : Int) (s : Nat)
    (i j : Nat) (hi : i % 2 ^ s = 0) (hj : j % 2 ^ s = 0)
    (hiw : i < source.width) (hjh : j < source.height)
    (hne : source.getPixel i j ≠ 0)
    (hib : dst.inBounds (x + (i / 2 ^ s : Nat)) (y + (j / 2 ^ s : Nat))) :
    (renderScaledImage source dst x y s).getPixel
      (x + (i / 2 ^ s : Nat)) (y + (j / 2 ^ s : Nat)) = source.getPixel i j := by
  rw [renderScaledImage_getPixel, srcValAt_of_pair source x y s hi hj,
    if_pos hne, Image.getPixel_setPixel_self, if_pos hib]

/-- Destination pixels whose corresponding source pixel is zero (or has no
corresponding source pixel at all) are left untouched. -/
theorem renderScaledImage_preserves_zero (source dst : Image) (x y : Int)
    (s : Nat) (a b : Int) (h0 : srcValAt source x y s a b = 0) :
    (renderScaledImage source dst x y s).getPixel a b = dst.getPixel a b := by
  rw [renderScaledImage_getPixel, if_neg (fun hc => hc h0)]

/-- C1: for every source image, destination image, origin `(x, y)` and scale
level `s ≥ 0`, `renderScaledImage` reads only source pixels whose
coordinates `(i, j)` are both exact multiples of `2 ^ s`, writes each such
pixel whose value is non-zero to destination coordinate
`(x + (i >> s), y + (j >> s))`, leaves the destination unchanged at every
position whose corresponding source pixel is zero, and for `s = 0` copies
every non-zero source pixel 1:1. -/
theorem renderScaledImage_spec (source dst : Image) (x y : Int) (s : Nat) :
    (∀ src2 : Image, src2.width = source.width → src2.height = source.height →
      (∀ i j : Nat, i % 2 ^ s = 0 → j % 2 ^ s = 0 →
        src2.getPixel i j = source.getPixel i j) →
      renderScaledImage src2 dst x y s = renderScaledImage source dst x y s) ∧
    (∀ i j : Nat, i % 2 ^ s = 0 → j % 2 ^ s = 0 → i < source.width →
      j < source.height → source.getPixel i j ≠ 0 →
      dst.inBounds (x + (i / 2 ^ s : Nat)) (y + (j / 2 ^ s : Nat)) →
      (renderScaledImage source dst x y s).getPixel
        (x + (i / 2 ^ s : Nat)) (y + (j / 2 ^ s : Nat)) = source.getPixel i j) ∧
    (∀ a b : Int, srcValAt source x y s a b = 0 →
      (renderScaledImage source dst x y s).getPixel a b = dst.getPixel a b) ∧
    (s = 0 → ∀ i j : Nat, i < source.width → j < source.height →
      source.getPixel i j ≠ 0 → dst.inBounds (x + (i : Int)) (y + (j : Int)) →
      (renderScaledImage source dst x y s).getPixel (x + (i : Int))
        (y + (j : Int)) = source.getPixel i j) := by
  refine ⟨fun src2 hw hh hpix =>
      renderScaledImage_reads_only_multiples source dst x y s src2 hw hh hpix,
    fun i j hi hj hiw hjh hne hib =>
      renderScaledImage_writes source dst x y s i j hi hj hiw hjh hne hib,
    fun a b h0 => renderScaledImage_preserves_zero source dst x y s a b h0,
    ?_⟩
  rintro rfl i j hiw hjh hne hib
  have hdiv : ∀ k : Nat, k / 2 ^ (0 : Nat) = k := fun k => by norm_num
  have h := renderScaledImage_writes source dst x y 0 i j
    (by simp [Nat.mod_one]) (by simp [Nat.mod_one]) hiw hjh hne
    (by rw [hdiv i, hdiv j]; exact hib)
  rw [hdiv i, hdiv j] at h
  exact h

/-!  ### Fixtures for the concrete instantiations  -/

/-- A 4×4 image every pixel of which has value 7. -/
def srcEx : Image := { width := 4, height := 4, data := fun _ _ => 7 }

theorem renderScaledImage_spec_witness :
    (renderScaledImage srcEx (Image.create 4 4) 0 0 1).getPixel
      (0 + ((2 / 2 ^ 1 : Nat) : Int)) (0 + ((2 / 2 ^ 1 : Nat) : Int)) =
      srcEx.getPixel 2 2 :=
  (renderScaledImage_spec srcEx (Image.create 4 4) 0 0 1).2.1 2 2 (by decide)
    (by decide) (by decide) (by decide) (by decide) (by decide)

/-- C8: overlaying a sprite whose image consists entirely of zero pixels
leaves every pixel of the minimap's image unchanged, for every requested
sprite scale. -/
theorem includeSprite_all_zero_noop (mm : Minimap) (sprite : Sprite) (p : Nat)
    (hz : ∀ a b : Int, sprite.image.getPixel a b = 0) (a b : Int) :
    (includeSprite mm sprite p).image.getPixel a b = mm.image.getPixel a b := by
  show (renderScaledImage sprite.image mm.image _ _ _).getPixel a b = _
  apply renderScaledImage_preserves_zero
  unfold srcValAt
  split
  · exact hz _ _
  · rfl

/-- A sprite whose 2×2 image is entirely transparent. -/
def spriteZeroEx : Sprite :=
  { x := 1, y := 1, width := 2, height := 2, image := Image.create 2 2,
    destroyed := false }

/-- A minimap whose image is `srcEx`. -/
def mmEx : Minimap :=
  { image := srcEx, scale := 1, borderWidth := 0, borderColor := 0 }

theorem includeSprite_all_zero_noop_witness :
    (includeSprite mmEx spriteZeroEx 0).image.getPixel 1 1 =
      mmEx.image.getPixel 1 1 :=
  includeSprite_all_zero_noop mmEx spriteZeroEx 0
    (fun a b => by unfold Image.getPixel; split <;> rfl) 1 1

/-!  ## C3, C7: getMinimapObject dimensions  -/

theorem stampTile_width (tilemap : TileMap) (scale borderWidth r : Nat)
    (img : Image) (c : Nat) :
    (stampTile tilemap scale borderWidth r img c).width = img.width :=
  renderScaledImage_width _ _ _ _ _

theorem stampTile_height (tilemap : TileMap) (scale borderWidth r : Nat)
    (img : Image) (c : Nat) :
    (stampTile tilemap scale borderWidth r img c).height = img.height :=
  renderScaledImage_height _ _ _ _ _

theorem stampRow_width (tilemap : TileMap) (scale borderWidth : Nat)
    (img : Image) (r : Nat) :
    (stampRow tilemap scale borderWidth img r).width = img.width :=
  foldl_width _ _ (fun d c => stampTile_width tilemap scale borderWidth r d c)
    img

theorem stampRow_height (tilemap : TileMap) (scale borderWidth : Nat)
    (img : Image) (r : Nat) :
    (stampRow tilemap scale borderWidth img r).height = img.height :=
  foldl_height _ _ (fun d c => stampTile_height tilemap scale borderWidth r d c)
    img

theorem getMinimapObject_image_width (world : World) (tm : TileMap)
    (htm : world.tileMap = some tm) (s b col : Nat) :
    (getMinimapObject world s b col).image.width =
      (tm.areaWidth / 2 ^ tm.scale) * 2 ^ tm.scale / 2 ^ s + b * 2 := by
  unfold getMinimapObject
  rw [htm]
  dsimp only
  rw [foldl_width]
  · split <;> rfl
  · exact fun d r => stampRow_width tm s b d r

theorem getMinimapObject_image_height (world : World) (tm : TileMap)
    (htm : world.tileMap = some tm) (s b col : Nat) :
    (getMinimapObject world s b col).image.height =
      (tm.areaHeight / 2 ^ tm.scale) * 2 ^ tm.scale / 2 ^ s + b * 2 := by
  unfold getMinimapObject
  rw [htm]
  dsimp only
  rw [foldl_height]
  · split <;> rfl
  · exact fun d r => stampRow_height tm s b d r

/-- C3: with an active tile grid, the minimap image is
`(numCols * tileWidth >> s) + 2 * b` by `(numRows * tileWidth >> s) + 2 * b`,
with `tileWidth = 2 ^ (tile-grid scale)` and `numCols`/`numRows` the grid
dimensions in tiles (`areaWidth >> tilemap.scale` / `areaHeight >>
tilemap.scale`). -/
theorem getMinimapObject_dims (world : World) (tm : TileMap) (s b col : Nat)
    (htm : world.tileMap = some tm) :
    (getMinimapObject world s b col).image.width =
      (tm.areaWidth / 2 ^ tm.scale) * 2 ^ tm.scale / 2 ^ s + 2 * b ∧
    (getMinimapObject world s b col).image.height =
      (tm.areaHeight / 2 ^ tm.scale) * 2 ^ tm.scale / 2 ^ s + 2 * b := by
  constructor
  · rw [getMinimapObject_image_width world tm htm s b col, Nat.mul_comm b 2]
  · rw [getMinimapObject_image_height world tm htm s b col, Nat.mul_comm b 2]

/-- A 2-scale tile map over an 8×4 pixel area whose tiles are all blank. -/
def tmEx : TileMap :=
  { scale := 1, areaWidth := 8, areaHeight := 4, getTileIndex := fun _ _ => 0,
    getTileImage := fun _ => Image.create 2 2 }

def worldEx : World := { tileMap := some tmEx }

theorem getMinimapObject_dims_witness :
    (getMinimapObject worldEx 1 2 5).image.width =
      (tmEx.areaWidth / 2 ^ tmEx.scale) * 2 ^ tmEx.scale / 2 ^ 1 + 2 * 2 ∧
    (getMinimapObject worldEx 1 2 5).image.height =
      (tmEx.areaHeight / 2 ^ tmEx.scale) * 2 ^ tmEx.scale / 2 ^ 1 + 2 * 2 :=
  getMinimapObject_dims worldEx tmEx 1 2 5 rfl

/-- C7: with no active tile grid, `getMinimapObject` returns a valid
instance with a blank 1×1 image carrying the requested parameters. -/
theorem getMinimapObject_no_tilemap (world : World) (s b col : Nat)
    (htm : world.tileMap = none) :
    (getMinimapObject world s b col).image.width = 1 ∧
    (getMinimapObject world s b col).image.height = 1 ∧
    (∀ p q : Int, (getMinimapObject world s b col).image.getPixel p q = 0) ∧
    (getMinimapObject world s b col).scale = s ∧
    (getMinimapObject world s b col).borderWidth = b ∧
    (getMinimapObject world s b col).borderColor = col := by
  unfold getMinimapObject
  rw [htm]
  dsimp only
  refine ⟨rfl, rfl, ?_, rfl, rfl, rfl⟩
  intro p q
  unfold Image.getPixel
  split <;> rfl

def worldNoneEx : World := { tileMap := none }

theorem getMinimapObject_no_tilemap_witness :
    (getMinimapObject worldNoneEx 3 4 9).image.width = 1 ∧
    (getMinimapObject worldNoneEx 3 4 9).image.height = 1 ∧
    (∀ p q : Int, (getMinimapObject worldNoneEx 3 4 9).image.getPixel p q = 0) ∧
    (getMinimapObject worldNoneEx 3 4 9).scale = 3 ∧
    (getMinimapObject worldNoneEx 3 4 9).borderWidth = 4 ∧
    (getMinimapObject worldNoneEx 3 4 9).borderColor = 9 :=
  getMinimapObject_no_tilemap worldNoneEx 3 4 9 rfl

/-!  ## C4: the border survives where no tile content lands  -/

/-- Some tile stamped by the builder loop of `getMinimapObject` maps a
non-zero source pixel onto minimap coordinate `(p, q)`. -/
def tileContentAt (tilemap : TileMap) (scale borderWidth : Nat)
    (p q : Int) : Prop :=
  ∃ r c : Nat, r < tilemap.areaHeight / 2 ^ tilemap.scale ∧
    c < tilemap.areaWidth / 2 ^ tilemap.scale ∧
    srcValAt (tilemap.getTileImage (tilemap.getTileIndex c r))
      ((c * 2 ^ tilemap.scale / 2 ^ scale + borderWidth : Nat))
      ((r * 2 ^ tilemap.scale / 2 ^ scale + borderWidth : Nat))
      scale p q ≠ 0

/-- C4: with border width `b > 0` the whole image is filled with
`borderColor` before the tiles are stamped at offsets
`((c * tileWidth >> s) + b, (r * tileWidth >> s) + b)`, so every in-bounds
pixel of the outer `b`-pixel margin that no tile content was drawn over
equals `borderColor`. -/
theorem getMinimapObject_border (world : World) (tm : TileMap) (s b col : Nat)
    (p q : Int) (htm : world.tileMap = some tm) (hb : 0 < b)
    (hin : (getMinimapObject world s b col).image.inBounds p q)
    (hmargin : p < (b : Int) ∨
      ((getMinimapObject world s b col).image.width : Int) - b ≤ p ∨
      q < (b : Int) ∨
      ((getMinimapObject world s b col).image.height : Int) - b ≤ q)
    (hnc : ¬ tileContentAt tm s b p q) :
    (getMinimapObject world s b col).image.getPixel p q = col := by
  clear hmargin
  have hz : ∀ r c : Nat, r < tm.areaHeight / 2 ^ tm.scale →
      c < tm.areaWidth / 2 ^ tm.scale →
      srcValAt (tm.getTileImage (tm.getTileIndex c r))
        ((c * 2 ^ tm.scale / 2 ^ s + b : Nat))
        ((r * 2 ^ tm.scale / 2 ^ s + b : Nat)) s p q = 0 := by
    intro r c hr hc
    by_contra hne
    exact hnc ⟨r, c, hr, hc, hne⟩
  obtain ⟨h1, h2, h3, h4⟩ := hin
  rw [getMinimapObject_image_width world tm htm s b col] at h2
  rw [getMinimapObject_image_height world tm htm s b col] at h4
  have hrow : ∀ (img : Image) (r : Nat),
      r ∈ List.range (tm.areaHeight / 2 ^ tm.scale) →
      (stampRow tm s b img r).getPixel p q = img.getPixel p q := by
    intro img r hr
    unfold stampRow
    apply foldl_getPixel_invariant
    intro img' c hc
    unfold stampTile
    dsimp only
    apply renderScaledImage_preserves_zero
    exact hz r c (List.mem_range.mp hr) (List.mem_range.mp hc)
  unfold getMinimapObject
  rw [htm]
  dsimp only
  rw [foldl_getPixel_invariant _ _ p q _ hrow, if_pos hb, Image.getPixel_fill,
    if_pos ?hinb]
  case hinb =>
    exact ⟨h1, by exact_mod_cast h2, h3, by exact_mod_cast h4⟩

theorem getMinimapObject_border_witness :
    (getMinimapObject worldEx 1 2 5).image.getPixel 0 0 = 5 :=
  getMinimapObject_border worldEx tmEx 1 2 5 0 0 rfl (by decide) (by decide)
    (Or.inl (by decide))
    (fun hc => by
      obtain ⟨r, c, hr, hc2, hne⟩ := hc
      exact hne (srcValAt_create 2 2 _ _ 1 0 0))

/-!  ## C5, C6: includeSprite scale clamp and centered placement  -/

/-- C5: `includeSprite` draws the sprite at effective scale
`max(minimap.scale − spriteScale, 0)`: the effective scale is never
negative, and for a minimap at scale 3 with a sprite requested at scale 5
it is 0. -/
theorem includeSprite_scale_clamp (mm : Minimap) (sprite : Sprite) (p : Nat) :
    (∃ x y : Int, (includeSprite mm sprite p).image =
      renderScaledImage sprite.image mm.image x y (effectiveScale mm.scale p)) ∧
    ((effectiveScale mm.scale p : Int) =
      max ((mm.scale : Int) - (p : Int)) 0) ∧
    effectiveScale 3 5 = 0 := by
  refine ⟨⟨_, _, rfl⟩, ?_, by decide⟩
  unfold effectiveScale
  rw [Int.toNat_of_nonneg (le_max_right _ _)]

/-- C6: `includeSprite` stamps the sprite's image at destination origin
`x = (sprite.x >> minimap.scale) − ((sprite.width / 2) >> effectiveScale)
+ minimap.borderWidth` and analogously for `y`: placement centered on the
sprite's world position. -/
theorem includeSprite_centered (mm : Minimap) (sprite : Sprite) (p : Nat)
    (hnd : sprite.destroyed = false) :
    (includeSprite mm sprite p).image =
      renderScaledImage sprite.image mm.image
        (sprite.x / ((2 ^ mm.scale : Nat) : Int) -
          ((sprite.width / 2 / 2 ^ effectiveScale mm.scale p : Nat) : Int) +
          (mm.borderWidth : Int))
        (sprite.y / ((2 ^ mm.scale : Nat) : Int) -
          ((sprite.height / 2 / 2 ^ effectiveScale mm.scale p : Nat) : Int) +
          (mm.borderWidth : Int))
        (effectiveScale mm.scale p) := rfl

/-- A live 16×8 sprite centered at world position (20, 12). -/
def spriteEx : Sprite :=
  { x := 20, y := 12, width := 16, height := 8, image := srcEx,
    destroyed := false }

theorem includeSprite_centered_witness :
    (includeSprite mmEx spriteEx 0).image =
      renderScaledImage spriteEx.image mmEx.image
        (spriteEx.x / ((2 ^ mmEx.scale : Nat) : Int) -
          ((spriteEx.width / 2 / 2 ^ effectiveScale mmEx.scale 0 : Nat) : Int) +
          (mmEx.borderWidth : Int))
        (spriteEx.y / ((2 ^ mmEx.scale : Nat) : Int) -
          ((spriteEx.height / 2 / 2 ^ effectiveScale mmEx.scale 0 : Nat) : Int) +
          (mmEx.borderWidth : Int))
        (effectiveScale mmEx.scale 0) :=
  includeSprite_centered mmEx spriteEx 0 rfl

/-!  ## C9: removeSpriteFromUpdateList  -/

/-- C9: `removeSpriteFromUpdateList` removes exactly the entries whose
sprite reference equals the given sprite, keeps the remaining entries (in
order), and is a no-op when the sprite has no entry in the list. -/
theorem removeSpriteFromUpdateList_spec (lst : List IUpdateSprite)
    (s : Option Nat) :
    (∀ u, u ∈ removeSpriteFromUpdateList lst s ↔ u ∈ lst ∧ u.sprite ≠ s) ∧
    (removeSpriteFromUpdateList lst s).Sublist lst ∧
    ((∀ u ∈ lst, u.sprite ≠ s) → removeSpriteFromUpdateList lst s = lst) := by
  unfold removeSpriteFromUpdateList
  refine ⟨?_, List.filter_sublist lst, ?_⟩
  · intro u
    rw [List.mem_filter]
    constructor
    · rintro ⟨h1, h2⟩
      exact ⟨h1, by simpa using h2⟩
    · rintro ⟨h1, h2⟩
      exact ⟨h1, by simpa using h2⟩
  · intro h
    rw [List.filter_eq_self]
    intro u hu
    simpa using h u hu

theorem removeSpriteFromUpdateList_spec_witness :
    removeSpriteFromUpdateList [⟨some 0, 1⟩] (some 5) = [⟨some 0, 1⟩] :=
  (removeSpriteFromUpdateList_spec [⟨some 0, 1⟩] (some 5)).2.2 (by decide)

/-!  ## C2: one refresh tick prunes destroyed sprites  -/

/-- The tick loop over a snapshot of the tracked list, in closed form: live
snapshot entries are overlaid onto the working minimap in order, and the
live list keeps exactly the entries whose sprite no visited destroyed entry
shares. -/
theorem tickLoop_eq (heap : Nat → Sprite) (snapshot : List IUpdateSprite) :
    ∀ (m : Minimap) (lst : List IUpdateSprite),
    snapshot.foldl
      (fun st u =>
        if !isDestroyed heap u.sprite then
          (includeSprite st.1 (derefSprite heap u.sprite) u.scale, st.2)
        else (st.1, removeSpriteFromUpdateList st.2 u.sprite))
      (m, lst) =
    ((snapshot.filter (fun u => !isDestroyed heap u.sprite)).foldl
        (fun m2 u => includeSprite m2 (derefSprite heap u.sprite) u.scale) m,
      lst.filter (fun v => snapshot.all
        (fun u => !isDestroyed heap u.sprite || (v.sprite != u.sprite)))) := by
  induction snapshot with
  | nil =>
    intro m lst
    simp
  | cons u t ih =>
    intro m lst
    rw [List.foldl_cons]
    cases hd : isDestroyed heap u.sprite
    · rw [if_pos (by simp [hd])]
      rw [ih (includeSprite m (derefSprite heap u.sprite) u.scale) lst]
      rw [List.filter_cons_of_pos (by simp [hd]), List.foldl_cons]
      have hsnd : lst.filter (fun v => t.all
            (fun u2 => !isDestroyed heap u2.sprite || (v.sprite != u2.sprite))) =
          lst.filter (fun v => (u :: t).all
            (fun u2 => !isDestroyed heap u2.sprite || (v.sprite != u2.sprite))) := by
        apply List.filter_congr
        intro v _
        rw [List.all_cons, hd]
        rfl
      rw [hsnd]
    · rw [if_neg (by simp [hd])]
      rw [ih m (removeSpriteFromUpdateList lst u.sprite)]
      rw [List.filter_cons_of_neg (by simp [hd])]
      unfold removeSpriteFromUpdateList
      rw [List.filter_filter]
      have hsnd : lst.filter (fun v => ((t.all
            (fun u2 => !isDestroyed heap u2.sprite || (v.sprite != u2.sprite))) &&
            (v.sprite != u.sprite))) =
          lst.filter (fun v => (u :: t).all
            (fun u2 => !isDestroyed heap u2.sprite || (v.sprite != u2.sprite))) := by
        apply List.filter_congr
        intro v _
        rw [List.all_cons, hd]
        simp only [Bool.not_true, Bool.false_or]
        rw [Bool.and_comm]
      rw [hsnd]

/-- C2: during one refresh tick, every visited entry whose sprite is
destroyed (null or flagged) is removed from the tracked list and not
overlaid onto the tick's output; every visited live entry is overlaid; and
after the tick the tracked list contains no entry referencing a destroyed
sprite. -/
theorem tick_prunes_destroyed (world : World) (heap : Nat → Sprite)
    (mm : Minimap) (lst : List IUpdateSprite) :
    (tickOnce world heap mm lst).2 =
      lst.filter (fun u => !isDestroyed heap u.sprite) ∧
    (tickOnce world heap mm lst).1 =
      (lst.filter (fun u => !isDestroyed heap u.sprite)).foldl
        (fun m2 u => includeSprite m2 (derefSprite heap u.sprite) u.scale)
        (getMinimapObject world mm.scale mm.borderWidth mm.borderColor) ∧
    (∀ u ∈ (tickOnce world heap mm lst).2,
      isDestroyed heap u.sprite = false) := by
  have hloop := tickLoop_eq heap lst
    (getMinimapObject world mm.scale mm.borderWidth mm.borderColor) lst
  have hsnap : lst.filter (fun v => lst.all
        (fun u => !isDestroyed heap u.sprite || (v.sprite != u.sprite))) =
      lst.filter (fun u => !isDestroyed heap u.sprite) := by
    apply List.filter_congr
    intro v hv
    cases hdv : isDestroyed heap v.sprite
    · simp only [Bool.not_false]
      apply List.all_eq_true.mpr
      intro u hu
      cases hdu : isDestroyed heap u.sprite
      · simp
      · simp only [Bool.not_true, Bool.false_or]
        have hne : v.sprite ≠ u.sprite := by
          intro he
          rw [he, hdu] at hdv
          exact nomatch hdv
        simpa using hne
    · simp only [Bool.not_true]
      rw [Bool.eq_false_iff]
      intro hall
      have := List.all_eq_true.mp hall v hv
      rw [hdv] at this
      simp at this
  have hA : (tickOnce world heap mm lst).2 =
      lst.filter (fun u => !isDestroyed heap u.sprite) := by
    unfold tickOnce
    dsimp only
    rw [hloop]
    exact hsnap
  have hB : (tickOnce world heap mm lst).1 =
      (lst.filter (fun u => !isDestroyed heap u.sprite)).foldl
        (fun m2 u => includeSprite m2 (derefSprite heap u.sprite) u.scale)
        (getMinimapObject world mm.scale mm.borderWidth mm.borderColor) := by
    unfold tickOnce
    dsimp only
    rw [hloop]
  refine ⟨hA, hB, ?_⟩
  intro u hu
  rw [hA] at hu
  have h2 := (List.mem_filter.mp hu).2
  simpa using h2

/-- A sprite heap in which sprite 1 is destroyed and all others are live. -/
def heapEx : Nat → Sprite := fun r =>
  { x := 0, y := 0, width := 2, height := 2, image := Image.create 2 2,
    destroyed := decide (r = 1) }

theorem tick_prunes_destroyed_witness :
    (tickOnce worldNoneEx heapEx mmEx
      [⟨some 0, 0⟩, ⟨some 1, 0⟩, ⟨none, 2⟩]).2 = [⟨some 0, 0⟩] :=
  ((tick_prunes_destroyed worldNoneEx heapEx mmEx
    [⟨some 0, 0⟩, ⟨some 1, 0⟩, ⟨none, 2⟩]).1).trans (by decide)

/-!  ## C10: the tick requires a created minimap sprite  -/

/-- C10: the refresh-tick callback reads `minimapSprite.data` with no guard:
it runs without fault exactly when the module-level minimap sprite exists
(i.e. `createMinimapSprite` has run), and faults from the Uninitialized
state; `createMinimapSprite` always establishes the sprite the tick needs. -/
theorem runTick_requires_createMinimapSprite (world : World)
    (heap : Nat → Sprite) (st : ModuleState) :
    ((runTick world heap st).isSome ↔ st.minimapSprite.isSome) ∧
    (∀ (w2 : World) (s b col : Nat) (st2 : ModuleState),
      ((createMinimapSprite w2 s b col st2).minimapSprite).isSome) := by
  constructor
  · unfold runTick
    cases h : st.minimapSprite <;> simp [h]
  · intro w2 s b col st2
    rfl

theorem runTick_requires_createMinimapSprite_witness :
    runTick worldNoneEx heapEx
      { minimapSprite := none, spritesToUpdate := [] } = none ∧
    ((createMinimapSprite worldNoneEx 1 2 3
      { minimapSprite := none, spritesToUpdate := [] }).minimapSprite).isSome := by
  constructor
  · have h := (runTick_requires_createMinimapSprite worldNoneEx heapEx
      { minimapSprite := none, spritesToUpdate := [] }).1
    rcases hr : runTick worldNoneEx heapEx
      { minimapSprite := none, spritesToUpdate := [] } with _ | v
    · rfl
    · rw [hr] at h
      simp at h
  · exact (runTick_requires_createMinimapSprite worldNoneEx heapEx
      { minimapSprite := none, spritesToUpdate := [] }).2 worldNoneEx 1 2 3
      { minimapSprite := none, spritesToUpdate := [] }

end minimap
